import Mathlib

/-!
Verification of the IoT telemetry-relay server (`src/unnamed/part_000`).

The development shallowly embeds the server's core logic:
* the change detector `hasDataChanged`,
* the sensor state store (`updateChangedFields`, the `/api/getData` delta
  query, `/api/thresholds` mutation),
* the sensor-data validation layer (`validateSensorData` and the
  `/api/data` handler),
* the command queue and long-poll dispatcher (`/api/deviceCommand`,
  `/api/getDeviceCommand`, `/api/pollDeviceCommand`,
  `/api/clearPendingCommands`).

JavaScript values that can flow through these functions are modelled by
`JsVal`: `num` holds a finite JS number (as a rational), `nan` stands for
the non-finite numbers rejected by `isValidNumber`, and `null` is the JS
`null`; a JS `undefined` field is modelled by `Option.none`.  Instants
(`Date.now()` / ISO timestamps) are modelled as naturals, and the random
command ids as opaque strings supplied by the caller.
-/

/-- The five tracked sensor fields (the keys of `latestData`). -/
inductive SensorField
  | temp
  | heartrate
  | movement
  | lat
  | lon
deriving DecidableEq, Repr

/-- The key order of `latestData` (also the insertion order of
`receivedData` in the `/api/data` handler). -/
def SensorField.all : List SensorField :=
  [SensorField.temp, SensorField.heartrate, SensorField.movement, SensorField.lat, SensorField.lon]

/-- A JavaScript value as it can appear in a parsed request body. -/
inductive JsVal
  | num (q : ℚ)
  | nan
  | str (s : String)
  | jbool (b : Bool)
  | null
deriving DecidableEq, Repr

/-- `typeof v === 'number'` (note `typeof NaN === 'number'` in JS). -/
def JsVal.isNumber : JsVal → Bool
  | JsVal.num _ => true
  | JsVal.nan => true
  | _ => false

/-- `typeof v === 'boolean'`. -/
def JsVal.isBoolVal : JsVal → Bool
  | JsVal.jbool _ => true
  | _ => false

/-- `v === undefined || v === null`, with `undefined` as `none`. -/
def isUnset : Option JsVal → Bool
  | none => true
  | some JsVal.null => true
  | some _ => false

/-- `isValidNumber`: a number that is neither NaN nor infinite. -/
def isValidNumber : JsVal → Bool
  | JsVal.num _ => true
  | _ => false

/-- `validMovements`. -/
def validMovements : List String := ["sitting", "standing", "walking"]

/-- `isValidMovement`. -/
def isValidMovement : JsVal → Bool
  | JsVal.str s => validMovements.contains s
  | _ => false

/-- `isValidCoordinate`: finite number with `Math.abs(value) <= 180`. -/
def isValidCoordinate : JsVal → Bool
  | JsVal.num q => decide (|q| ≤ 180)
  | _ => false

/-- The mutable per-field threshold table `changeThresholds`. -/
structure Thresholds where
  temp : ℚ
  heartrate : ℚ
  movement : ℚ
  lat : ℚ
  lon : ℚ
deriving DecidableEq, Repr

/-- Threshold lookup `changeThresholds[field]`. -/
def Thresholds.get (th : Thresholds) : SensorField → ℚ
  | SensorField.temp => th.temp
  | SensorField.heartrate => th.heartrate
  | SensorField.movement => th.movement
  | SensorField.lat => th.lat
  | SensorField.lon => th.lon

/-- Threshold assignment `changeThresholds[field] = q`. -/
def Thresholds.set (th : Thresholds) : SensorField → ℚ → Thresholds
  | SensorField.temp, q => { th with temp := q }
  | SensorField.heartrate, q => { th with heartrate := q }
  | SensorField.movement, q => { th with movement := q }
  | SensorField.lat, q => { th with lat := q }
  | SensorField.lon, q => { th with lon := q }

/-- The initial `changeThresholds` table (0.1, 1, 0.5, 0.0001, 0.0001,
written as explicit fractions). -/
def defaultThresholds : Thresholds :=
  { temp := mkRat 1 10, heartrate := 1, movement := mkRat 1 2,
    lat := mkRat 1 10000, lon := mkRat 1 10000 }

/-- `hasDataChanged(sensorType, newValue, oldValue)`: the change detector.
Checks, in the source's order: unset `oldValue` (always changed), unset
`newValue` (never changed), the non-numeric strict-inequality rule, and
the numeric absolute-difference-vs-threshold rule.  A NaN operand in the
numeric comparison makes the JS `>=` evaluate to false. -/
def hasDataChanged (th : Thresholds) (sensorType : SensorField)
    (newValue oldValue : Option JsVal) : Bool :=
  if isUnset oldValue then true
  else if isUnset newValue then false
  else
    match newValue, oldValue with
    | some n, some o =>
      if n.isNumber && o.isNumber then
        match n, o with
        | JsVal.num a, JsVal.num b => decide (th.get sensorType ≤ |a - b|)
        | _, _ => false
      else decide (n ≠ o)
    | _, _ => false

/-- A stored reading: `latestData[key]` once set, `{ value, timestamp }`. -/
structure Reading where
  value : JsVal
  timestamp : Nat
deriving DecidableEq, Repr

/-- A JS object with the five sensor keys, each possibly absent/null.
`FieldMap Reading` is the `latestData` table (a `null` slot is `none`);
`FieldMap JsVal` is a parsed request body restricted to the five keys. -/
structure FieldMap (α : Type) where
  temp : Option α := none
  heartrate : Option α := none
  movement : Option α := none
  lat : Option α := none
  lon : Option α := none
deriving DecidableEq, Repr

/-- SensorField lookup on a `FieldMap`. -/
def FieldMap.get {α : Type} (m : FieldMap α) : SensorField → Option α
  | SensorField.temp => m.temp
  | SensorField.heartrate => m.heartrate
  | SensorField.movement => m.movement
  | SensorField.lat => m.lat
  | SensorField.lon => m.lon

/-- SensorField assignment on a `FieldMap`. -/
def FieldMap.set {α : Type} (m : FieldMap α) : SensorField → α → FieldMap α
  | SensorField.temp, v => { m with temp := some v }
  | SensorField.heartrate, v => { m with heartrate := some v }
  | SensorField.movement, v => { m with movement := some v }
  | SensorField.lat, v => { m with lat := some v }
  | SensorField.lon, v => { m with lon := some v }

/-- The empty JS object. -/
def FieldMap.empty {α : Type} : FieldMap α := {}

/-- A request body providing exactly one field. -/
def FieldMap.single {α : Type} (f : SensorField) (v : α) : FieldMap α :=
  FieldMap.set FieldMap.empty f v

/-- `Object.keys(m).length === 0` for a request body. -/
def FieldMap.allNone {α : Type} (m : FieldMap α) : Bool :=
  m.temp.isNone && m.heartrate.isNone && m.movement.isNone &&
    m.lat.isNone && m.lon.isNone

/-- The per-field loop body of `updateChangedFields`, walked over the keys
in insertion order, threading the mutated `latestData`, the collected
`changedFields` object and the `hasChanges` flag. -/
def updateFieldsGo (th : Thresholds) (now : Nat) (input : FieldMap JsVal) :
    List SensorField → FieldMap Reading → FieldMap Reading → Bool →
    Option (FieldMap Reading) × FieldMap Reading
  | [], store, changed, hasChanges =>
    (if hasChanges then some changed else none, store)
  | f :: rest, store, changed, hasChanges =>
    match input.get f with
    | none => updateFieldsGo th now input rest store changed hasChanges
    | some v =>
      if v = JsVal.null then
        updateFieldsGo th now input rest store changed hasChanges
      else
        let oldValue : Option JsVal := (store.get f).map Reading.value
        if hasDataChanged th f (some v) oldValue then
          updateFieldsGo th now input rest
            (store.set f { value := v, timestamp := now })
            (changed.set f { value := v, timestamp := now }) true
        else updateFieldsGo th now input rest store changed hasChanges

/-- `updateChangedFields(newData)`: records every provided, non-null field
approved by the change detector with a fresh timestamp, and returns the
collected changed fields (`null`, i.e. `none`, when nothing changed)
together with the updated `latestData`. -/
def updateChangedFields (store : FieldMap Reading) (th : Thresholds)
    (input : FieldMap JsVal) (now : Nat) :
    Option (FieldMap Reading) × FieldMap Reading :=
  updateFieldsGo th now input SensorField.all store FieldMap.empty false

/-- `validateSensorData(data)`: collects the error messages of every
provided field that violates its rule, in field order. -/
def validateSensorData (d : FieldMap JsVal) : List String :=
  (match d.temp with
   | some v => if !isValidNumber v then ["Temperature must be a valid number"] else []
   | none => []) ++
  (match d.heartrate with
   | some v =>
     if !isValidNumber v ||
         (match v with | JsVal.num q => decide (q < 0) | _ => false) then
       ["Heart rate must be a valid positive number"]
     else []
   | none => []) ++
  (match d.movement with
   | some v =>
     if !isValidMovement v then
       ["Movement must be one of: " ++ String.intercalate ", " validMovements]
     else []
   | none => []) ++
  (match d.lat with
   | some v =>
     if !isValidCoordinate v then
       ["Latitude must be a valid coordinate between -180 and 180"]
     else []
   | none => []) ++
  (match d.lon with
   | some v =>
     if !isValidCoordinate v then
       ["Longitude must be a valid coordinate between -180 and 180"]
     else []
   | none => [])

/-- Outcome of the `POST /api/data` handler. -/
inductive SubmitResult
  | validationFailed (errors : List String)
  | noValidData
  | changes (changed : FieldMap Reading)
  | noSignificantChanges
deriving DecidableEq, Repr

/-- The `POST /api/data` handler: validate every provided field, reject the
whole request on any violation (store untouched), reject an empty body,
otherwise apply `updateChangedFields`. -/
def submitReading (store : FieldMap Reading) (th : Thresholds)
    (input : FieldMap JsVal) (now : Nat) : SubmitResult × FieldMap Reading :=
  let errs := validateSensorData input
  if errs.isEmpty then
    if input.allNone then (SubmitResult.noValidData, store)
    else
      match updateChangedFields store th input now with
      | (some changed, store2) => (SubmitResult.changes changed, store2)
      | (none, store2) => (SubmitResult.noSignificantChanges, store2)
  else (SubmitResult.validationFailed errs, store)

/-- The `lastUpdate` branch of `POST /api/getData`: the fields whose stored
timestamp is strictly greater than `since`, paired with the `fullUpdate`
flag (true iff the delta is empty). -/
def getDataSince (store : FieldMap Reading) (since : Nat) :
    List (SensorField × Reading) × Bool :=
  let changed := SensorField.all.filterMap (fun f =>
    match store.get f with
    | some r => if since < r.timestamp then some (f, r) else none
    | none => none)
  (changed, changed.isEmpty)

/-- Resolves a request-body key against the five own keys of the
`changeThresholds` object literal. -/
def fieldOfString : String → Option SensorField
  | "temp" => some SensorField.temp
  | "heartrate" => some SensorField.heartrate
  | "movement" => some SensorField.movement
  | "lat" => some SensorField.lat
  | "lon" => some SensorField.lon
  | _ => none

/-- The property names a JS bracket lookup finds on `Object.prototype`:
for these keys `changeThresholds[key]` is not `undefined` even though the
threshold table has no own entry, because the lookup walks the prototype
chain of the plain object literal. -/
def objectProtoKeys : List String :=
  ["constructor", "hasOwnProperty", "isPrototypeOf", "propertyIsEnumerable",
   "toLocaleString", "toString", "valueOf", "__proto__",
   "__defineGetter__", "__defineSetter__", "__lookupGetter__",
   "__lookupSetter__"]

/-- The guard `changeThresholds[key] !== undefined`: true for the five own
threshold keys (their values are always numbers) and for every key
inherited from `Object.prototype`. -/
def thresholdKeyDefined (k : String) : Bool :=
  (fieldOfString k).isSome || objectProtoKeys.contains k

/-- `v >= 0` for a JS number (only consulted after `isValidNumber`). -/
def jsNonnegNum : JsVal → Bool
  | JsVal.num q => decide (0 ≤ q)
  | _ => false

/-- The condition of the `forEach` body of `POST /api/thresholds`:
`changeThresholds[key] !== undefined && isValidNumber(v) && v >= 0`.
The prototype-chain guard means an entry whose key is inherited from
`Object.prototype` also passes, even though it names no sensor field. -/
def validThresholdEntry (e : String × JsVal) : Bool :=
  thresholdKeyDefined e.1 && isValidNumber e.2 && jsNonnegNum e.2

/-- `changeThresholds[key] = value` for a counted entry.  For one of the
five sensor fields, the named threshold is updated.  For an
`Object.prototype` key, the JS assignment creates an own property
shadowing the prototype (or, for `__proto__`, is silently swallowed by
the inherited setter); no later lookup the embedded logic performs reads
such a shadow — `changeThresholds[sensorType]` uses the five sensor keys
and the guard's outcome is unchanged by shadowing — so the table is left
as is.  (The raw object serialized by `GET /api/thresholds` would
additionally show the shadow key; that response is outside the embedded
state.) -/
def assignThreshold (th : Thresholds) (k : String) (v : JsVal) : Thresholds :=
  match fieldOfString k, v with
  | some f, JsVal.num q => th.set f q
  | _, _ => th

/-- The `forEach` loop of `POST /api/thresholds`, threading the running
`updatedCount`: every entry passing `validThresholdEntry` is assigned and
counted, the rest are skipped. -/
def setThresholdsGo (th : Thresholds) (cnt : Nat) :
    List (String × JsVal) → Nat × Thresholds
  | [] => (cnt, th)
  | (k, v) :: rest =>
    if validThresholdEntry (k, v) then
      setThresholdsGo (assignThreshold th k v) (cnt + 1) rest
    else setThresholdsGo th cnt rest

/-- The `POST /api/thresholds` handler body: assigns and counts each entry
that passes the guard with a valid value, silently skipping the rest, and
reports the count. -/
def setThresholds (th : Thresholds) (entries : List (String × JsVal)) :
    Nat × Thresholds :=
  setThresholdsGo th 0 entries

/-- The actuator state `deviceCommands`. -/
structure DevCmds where
  buzzer : Bool
  led : Bool
deriving DecidableEq, Repr

/-- A partial command object (the `commandUpdate` built by
`POST /api/deviceCommand`): only the fields that changed. -/
structure CommandUpdate where
  buzzer : Option Bool := none
  led : Option Bool := none
deriving DecidableEq, Repr

/-- A queued command delta (`pendingCommands` entry). -/
structure PendingCommand where
  id : String
  commands : CommandUpdate
  timestamp : Nat
deriving DecidableEq, Repr

/-- The payload with which a parked long-poll listener is answered:
either a fresh command broadcast by `notifyCommandListeners`, or the
current `deviceCommands` snapshot with the `timeout: true` marker. -/
inductive ListenerMsg
  | cmd (commands : CommandUpdate) (commandId : String) (timestamp : Nat)
  | timeoutSnapshot (commands : DevCmds) (timestamp : Nat)
deriving DecidableEq, Repr

/-- The command subsystem's state.  Listeners are identified by the
naturals `0, 1, 2, ...` in registration order (`nextListenerId` is the
next fresh id); `events` is the log of responses sent to parked
listeners, in the order they were sent — a listener with an entry in
`events` is one whose response object has `headersSent` set. -/
structure CmdState where
  deviceCommands : DevCmds
  pendingCommands : List PendingCommand
  commandListeners : List Nat
  nextListenerId : Nat
  events : List (Nat × ListenerMsg)
deriving DecidableEq, Repr

/-- The state at process start. -/
def initCmdState : CmdState :=
  { deviceCommands := { buzzer := false, led := false },
    pendingCommands := [], commandListeners := [], nextListenerId := 0,
    events := [] }

/-- Whether a response has already been sent to listener `lid`
(`res.headersSent`), judged from an event log. -/
def isResolvedIn (ev : List (Nat × ListenerMsg)) (lid : Nat) : Bool :=
  ev.any (fun e => e.1 == lid)

/-- `res.headersSent` for listener `lid` in state `st`. -/
def isResolved (st : CmdState) (lid : Nat) : Bool :=
  isResolvedIn st.events lid

/-- The responses `notifyCommandListeners` sends: one per registered
listener, carrying the new command; a send to a listener that already has
a response throws inside the loop's `try` and is swallowed by its
`catch`, so it produces no delivery. -/
def notifyEvents (listeners : List Nat) (ev : List (Nat × ListenerMsg))
    (c : PendingCommand) : List (Nat × ListenerMsg) :=
  listeners.filterMap (fun lid =>
    if isResolvedIn ev lid then none
    else some (lid, ListenerMsg.cmd c.commands c.id c.timestamp))

/-- `notifyCommandListeners(command)`: answer every registered listener
with the command, then clear the registry. -/
def notifyCommandListeners (st : CmdState) (c : PendingCommand) : CmdState :=
  { st with
    events := st.events ++ notifyEvents st.commandListeners st.events c,
    commandListeners := [] }

/-- Outcome of `POST /api/deviceCommand`. -/
inductive SetCmdResult
  | emptyRequest
  | invalidBuzzer
  | invalidLed
  | ok (commands : DevCmds) (updated : Bool)
deriving DecidableEq, Repr

/-- Intermediate result of the field-by-field body of
`POST /api/deviceCommand`: an early `400` return (carrying the actuator
state as mutated so far) or the final state with the collected
`commandUpdate` and the `updated` flag. -/
inductive SetCmdApply
  | err (r : SetCmdResult) (dc : DevCmds)
  | applied (dc : DevCmds) (cu : CommandUpdate) (updated : Bool)
deriving DecidableEq, Repr

/-- The `led` half of the handler, entered after the `buzzer` half has
already validated and (possibly) applied its field. -/
def applyLed (dc : DevCmds) (cu : CommandUpdate) (upd : Bool) :
    Option JsVal → SetCmdApply
  | some (JsVal.jbool b) =>
    if dc.led != b then
      SetCmdApply.applied { dc with led := b } { cu with led := some b } true
    else SetCmdApply.applied dc cu upd
  | some _ => SetCmdApply.err SetCmdResult.invalidLed dc
  | none => SetCmdApply.applied dc cu upd

/-- The sequential field processing of `POST /api/deviceCommand`: empty
check, then buzzer (validate, apply if changed), then led (validate,
apply if changed).  A non-boolean `led` aborts after the buzzer has
already been applied. -/
def applyCmdFields (dc0 : DevCmds) (buzzer led : Option JsVal) : SetCmdApply :=
  if buzzer.isNone && led.isNone then
    SetCmdApply.err SetCmdResult.emptyRequest dc0
  else
    match buzzer with
    | some (JsVal.jbool b) =>
      if dc0.buzzer != b then
        applyLed { dc0 with buzzer := b } { buzzer := some b } true led
      else applyLed dc0 {} false led
    | some _ => SetCmdApply.err SetCmdResult.invalidBuzzer dc0
    | none => applyLed dc0 {} false led

/-- `POST /api/deviceCommand`: process the two fields; when anything
changed, build the `PendingCommand` (with the caller-supplied fresh `id`
and instant `now`), push it onto the queue, and notify all registered
listeners. -/
def setCommand (st : CmdState) (buzzer led : Option JsVal) (newId : String)
    (now : Nat) : SetCmdResult × CmdState :=
  match applyCmdFields st.deviceCommands buzzer led with
  | SetCmdApply.err r dc => (r, { st with deviceCommands := dc })
  | SetCmdApply.applied dc cu true =>
    let c : PendingCommand := { id := newId, commands := cu, timestamp := now }
    let st1 : CmdState :=
      { st with deviceCommands := dc,
                pendingCommands := st.pendingCommands ++ [c] }
    (SetCmdResult.ok dc true, notifyCommandListeners st1 c)
  | SetCmdApply.applied dc _cu false =>
    (SetCmdResult.ok dc false, { st with deviceCommands := dc })

/-- Synchronous outcome of `GET /api/getDeviceCommand`. -/
inductive LongPollOutcome
  | immediateCommand (commands : CommandUpdate) (commandId : String)
      (timestamp : Nat)
  | immediateSnapshot (commands : DevCmds)
  | registered (listenerId : Nat)
deriving DecidableEq, Repr

/-- `GET /api/getDeviceCommand`: if `immediate` was requested or commands
are pending, answer synchronously — dequeuing the oldest pending command
when there is one (`immediate: true` marker), else the current actuator
snapshot; otherwise park the request as a fresh listener. -/
def getDeviceCommand (st : CmdState) (immediate : Bool) :
    LongPollOutcome × CmdState :=
  if immediate || !st.pendingCommands.isEmpty then
    match st.pendingCommands with
    | c :: rest =>
      (LongPollOutcome.immediateCommand c.commands c.id c.timestamp,
       { st with pendingCommands := rest })
    | [] => (LongPollOutcome.immediateSnapshot st.deviceCommands, st)
  else
    (LongPollOutcome.registered st.nextListenerId,
     { st with commandListeners := st.commandListeners ++ [st.nextListenerId],
               nextListenerId := st.nextListenerId + 1 })

/-- The `res.setTimeout` callback armed when a listener is registered:
drop the listener from the registry and, unless a response was already
sent (`res.headersSent`), answer with the current actuator snapshot and
the `timeout: true` marker.  A timer exists only for an id that was
actually registered, hence the `lid < nextListenerId` guard. -/
def fireTimeout (st : CmdState) (lid : Nat) (now : Nat) : CmdState :=
  if lid < st.nextListenerId then
    if isResolvedIn st.events lid then
      { st with commandListeners := st.commandListeners.filter (fun l => l ≠ lid) }
    else
      { st with commandListeners := st.commandListeners.filter (fun l => l ≠ lid),
                events := st.events ++
                  [(lid, ListenerMsg.timeoutSnapshot st.deviceCommands now)] }
  else st

/-- Outcome of `GET /api/pollDeviceCommand`. -/
inductive PollOutcome
  | newCommand (commands : CommandUpdate) (commandId : String) (timestamp : Nat)
  | snapshot (commands : DevCmds)
deriving DecidableEq, Repr

/-- `GET /api/pollDeviceCommand`: dequeue and return the oldest pending
command (`newCommands: true`), or the current actuator snapshot. -/
def pollDeviceCommand (st : CmdState) : PollOutcome × CmdState :=
  match st.pendingCommands with
  | c :: rest =>
    (PollOutcome.newCommand c.commands c.id c.timestamp,
     { st with pendingCommands := rest })
  | [] => (PollOutcome.snapshot st.deviceCommands, st)

/-- `POST /api/clearPendingCommands`: report the queue length, then drop
the queue and the listener registry. -/
def clearPendingCommands (st : CmdState) : Nat × CmdState :=
  (st.pendingCommands.length,
   { st with pendingCommands := [], commandListeners := [] })

/-- One externally-triggered transition of the command subsystem. -/
inductive CmdOp
  | submitCmd (buzzer led : Option JsVal) (newId : String) (now : Nat)
  | longPoll (immediate : Bool)
  | poll
  | fireTO (lid : Nat) (now : Nat)
  | clear
deriving DecidableEq, Repr

/-- The state transition of one operation. -/
def stepOp (st : CmdState) : CmdOp → CmdState
  | CmdOp.submitCmd b l id now => (setCommand st b l id now).2
  | CmdOp.longPoll imm => (getDeviceCommand st imm).2
  | CmdOp.poll => (pollDeviceCommand st).2
  | CmdOp.fireTO lid now => fireTimeout st lid now
  | CmdOp.clear => (clearPendingCommands st).2

/-- Run a sequence of operations. -/
def runOps (st : CmdState) (ops : List CmdOp) : CmdState :=
  ops.foldl stepOp st

/-- Number of responses sent to listener `lid` in an event log. -/
def countEv (ev : List (Nat × ListenerMsg)) (lid : Nat) : Nat :=
  (ev.filter (fun e => e.1 == lid)).length

/-! ### Helper lemmas: threshold table and field enumeration -/

theorem Thresholds.get_set_self (th : Thresholds) (f : SensorField) (q : ℚ) :
    (th.set f q).get f = q := by
  cases f <;> rfl

theorem Thresholds.get_set_of_ne (th : Thresholds) (f g : SensorField) (q : ℚ)
    (h : g ≠ f) : (th.set g q).get f = th.get f := by
  cases g <;> cases f <;> first | rfl | exact absurd rfl h

theorem mem_sensorField_all (f : SensorField) : f ∈ SensorField.all := by
  cases f <;> simp [SensorField.all]

/-! ### C1: the change detector -/

/-- C1: `hasDataChanged` implements the change-detection contract, with
the source's rule priority: an unset `oldValue` is always significant
(checked first, so it wins even when `newValue` is also unset); with
`oldValue` set, an unset `newValue` is never significant; categorical
(string) values are significant exactly when they differ; finite numeric
values are significant exactly when their absolute difference reaches the
field's threshold.  Determinism and absence of side effects are inherent:
the embedding is a pure function of its arguments. -/
theorem hasDataChanged_spec :
    (∀ th f nv, hasDataChanged th f nv none = true ∧
       hasDataChanged th f nv (some JsVal.null) = true) ∧
    (∀ th f o, o ≠ JsVal.null →
       hasDataChanged th f none (some o) = false ∧
       hasDataChanged th f (some JsVal.null) (some o) = false) ∧
    (∀ th f s1 s2,
       hasDataChanged th f (some (JsVal.str s1)) (some (JsVal.str s2)) = true
         ↔ s1 ≠ s2) ∧
    (∀ th f a b,
       hasDataChanged th f (some (JsVal.num a)) (some (JsVal.num b)) = true
         ↔ th.get f ≤ |a - b|) := by
  refine ⟨?_, ?_, ?_, ?_⟩
  · intro th f nv
    constructor <;> rfl
  · intro th f o ho
    cases o <;> simp_all [hasDataChanged, isUnset]
  · intro th f s1 s2
    simp [hasDataChanged, isUnset, JsVal.isNumber]
  · intro th f a b
    simp [hasDataChanged, isUnset, JsVal.isNumber]

/-- C1 witness: the theorem evaluated at concrete inputs. -/
theorem hasDataChanged_spec_witness :
    (JsVal.str "sitting" ≠ JsVal.null ∧
      hasDataChanged defaultThresholds SensorField.movement none
        (some (JsVal.str "sitting")) = false) ∧
    (hasDataChanged defaultThresholds SensorField.temp (some (JsVal.num 2))
        (some (JsVal.num 1)) = true
      ↔ defaultThresholds.get SensorField.temp ≤ |(2 : ℚ) - 1|) :=
  ⟨⟨by decide,
    (hasDataChanged_spec.2.1 defaultThresholds SensorField.movement
      (JsVal.str "sitting") (by decide)).1⟩,
   hasDataChanged_spec.2.2.2 defaultThresholds SensorField.temp 2 1⟩

/-! ### C8: the delta-since query -/

theorem getDataSince_entry_chr (store : FieldMap Reading) (t : Nat)
    (a f : SensorField) (r : Reading) :
    (match store.get a with
     | some r0 => if t < r0.timestamp then some (a, r0) else none
     | none => none) = some (f, r)
      ↔ a = f ∧ store.get f = some r ∧ t < r.timestamp := by
  cases h : store.get a with
  | none =>
    refine ⟨fun hx => (nomatch hx), ?_⟩
    rintro ⟨rfl, h2, -⟩
    rw [h] at h2
    cases h2
  | some r0 =>
    by_cases ht : t < r0.timestamp
    · simp only [ht, if_true, Option.some.injEq, Prod.mk.injEq]
      constructor
      · rintro ⟨rfl, rfl⟩
        exact ⟨rfl, h, ht⟩
      · rintro ⟨rfl, h2, -⟩
        rw [h] at h2
        injection h2 with h3
        exact ⟨rfl, h3⟩
    · simp only [ht, if_false]
      refine ⟨fun hx => (nomatch hx), ?_⟩
      rintro ⟨rfl, h2, ht2⟩
      rw [h] at h2
      injection h2 with h3
      subst h3
      exact absurd ht2 ht

/-- C8: `getDataSince` (the `lastUpdate` branch of `POST /api/getData`)
returns exactly the stored readings whose timestamp is strictly greater
than `since` — never one whose timestamp is `≤ since` — and its
`fullUpdate` flag is true exactly when the returned mapping is empty. -/
theorem getDataSince_spec :
    ∀ (store : FieldMap Reading) (t : Nat),
      (∀ f r, (f, r) ∈ (getDataSince store t).1
          ↔ store.get f = some r ∧ t < r.timestamp) ∧
      ((getDataSince store t).2 = true ↔ (getDataSince store t).1 = []) := by
  intro store t
  constructor
  · intro f r
    simp only [getDataSince, List.mem_filterMap]
    constructor
    · rintro ⟨a, -, ha⟩
      exact ((getDataSince_entry_chr store t a f r).mp ha).2
    · intro h
      exact ⟨f, mem_sensorField_all f,
        (getDataSince_entry_chr store t f f r).mpr ⟨rfl, h⟩⟩
  · simp [getDataSince, List.isEmpty_iff]

/-! ### C9: threshold mutation -/

theorem assignThreshold_get_of_ne (th : Thresholds) (k : String) (v : JsVal)
    (f : SensorField) (h : fieldOfString k ≠ some f) :
    (assignThreshold th k v).get f = th.get f := by
  cases hf : fieldOfString k with
  | none => cases v <;> simp [assignThreshold, hf]
  | some g =>
    have hg : g ≠ f := fun e => h (by rw [hf, e])
    cases v with
    | num q =>
      simp only [assignThreshold, hf]
      exact Thresholds.get_set_of_ne th f g q hg
    | nan => simp [assignThreshold, hf]
    | str s => simp [assignThreshold, hf]
    | jbool b => simp [assignThreshold, hf]
    | null => simp [assignThreshold, hf]

theorem assignThreshold_nonneg (th : Thresholds) (k : String) (v : JsVal)
    (hth : ∀ f, 0 ≤ th.get f) (hv : jsNonnegNum v = true) :
    ∀ f, 0 ≤ (assignThreshold th k v).get f := by
  intro f
  cases hf : fieldOfString k with
  | none => cases v <;> simp only [assignThreshold, hf] <;> exact hth f
  | some g =>
    cases v with
    | num q =>
      have hq : (0 : ℚ) ≤ q := by simpa [jsNonnegNum] using hv
      simp only [assignThreshold, hf]
      by_cases hgf : g = f
      · rw [hgf, Thresholds.get_set_self]
        exact hq
      · rw [Thresholds.get_set_of_ne th f g q hgf]
        exact hth f
    | nan => simp only [assignThreshold, hf]; exact hth f
    | str s => simp only [assignThreshold, hf]; exact hth f
    | jbool b => simp only [assignThreshold, hf]; exact hth f
    | null => simp only [assignThreshold, hf]; exact hth f

theorem setThresholdsGo_count :
    ∀ (entries : List (String × JsVal)) (th : Thresholds) (cnt : Nat),
      (setThresholdsGo th cnt entries).1 = cnt + entries.countP validThresholdEntry := by
  intro entries
  induction entries with
  | nil => intro th cnt; simp [setThresholdsGo]
  | cons e rest ih =>
    intro th cnt
    obtain ⟨k, v⟩ := e
    simp only [setThresholdsGo]
    by_cases hv : validThresholdEntry (k, v) = true
    · rw [if_pos hv, ih, List.countP_cons]
      simp [hv]
      omega
    · rw [if_neg hv, ih, List.countP_cons]
      simp only [Bool.not_eq_true] at hv
      simp [hv]

theorem setThresholdsGo_get_skip :
    ∀ (entries : List (String × JsVal)) (th : Thresholds) (cnt : Nat)
      (f : SensorField),
      (∀ e ∈ entries, validThresholdEntry e = true → fieldOfString e.1 ≠ some f) →
      (setThresholdsGo th cnt entries).2.get f = th.get f := by
  intro entries
  induction entries with
  | nil => intro th cnt f _; rfl
  | cons e rest ih =>
    intro th cnt f hskip
    obtain ⟨k, v⟩ := e
    have hrest : ∀ e ∈ rest, validThresholdEntry e = true → fieldOfString e.1 ≠ some f :=
      fun e he => hskip e (List.mem_cons_of_mem _ he)
    simp only [setThresholdsGo]
    by_cases hv : validThresholdEntry (k, v) = true
    · rw [if_pos hv, ih (assignThreshold th k v) (cnt + 1) f hrest]
      exact assignThreshold_get_of_ne th k v f
        (hskip (k, v) (List.mem_cons_self _ _) hv)
    · rw [if_neg hv]
      exact ih th cnt f hrest

theorem setThresholdsGo_nonneg :
    ∀ (entries : List (String × JsVal)) (th : Thresholds) (cnt : Nat),
      (∀ f, 0 ≤ th.get f) →
      ∀ f, 0 ≤ (setThresholdsGo th cnt entries).2.get f := by
  intro entries
  induction entries with
  | nil => intro th cnt h f; exact h f
  | cons e rest ih =>
    intro th cnt h f
    obtain ⟨k, v⟩ := e
    simp only [setThresholdsGo]
    by_cases hv : validThresholdEntry (k, v) = true
    · rw [if_pos hv]
      refine ih (assignThreshold th k v) (cnt + 1) ?_ f
      refine assignThreshold_nonneg th k v h ?_
      have hsplit := hv
      simp only [validThresholdEntry, Bool.and_eq_true] at hsplit
      exact hsplit.2
    · rw [if_neg hv]
      exact ih th cnt h f

/-- C9 counterexample: the claim "applies exactly the entries that name a
known field ... silently skipping unknown fields" is false for the code.
The guard `changeThresholds[key] !== undefined` walks the prototype
chain, so at input `SetThresholds(toString: 5)` the program assigns the
entry and reports `updatedCount = 1` although `"toString"` names no
sensor field (every actual threshold is left unchanged). -/
theorem setThresholds_unknown_key_cex :
    fieldOfString "toString" = none ∧
    (setThresholds defaultThresholds [("toString", JsVal.num 5)]).1 = 1 ∧
    (setThresholds defaultThresholds [("toString", JsVal.num 5)]).2
      = defaultThresholds := by
  refine ⟨rfl, ?_, ?_⟩ <;> decide

/-- C9 (amended): `setThresholds` (the `POST /api/thresholds` body) never
fails the whole call for partially-invalid input (it is a total
function); the reported count is the number of entries whose key passes
the guard `changeThresholds[key] !== undefined` — one of the five sensor
fields or a key inherited from `Object.prototype` — and whose value is a
finite number `>= 0`; a sensor field named by no such valid entry keeps
its threshold, so invalid-value entries and entries with undefined keys
are silently skipped while a valid prototype-named entry is counted but
changes no threshold; thresholds stay nonnegative; and the spec's example
`SetThresholds(temp: -1, heartrate: 5)` applies only the heartrate update
and reports `updatedCount = 1`. -/
theorem setThresholds_spec :
    (∀ th entries,
       (setThresholds th entries).1 = entries.countP validThresholdEntry) ∧
    (∀ th entries f,
       (∀ e ∈ entries, validThresholdEntry e = true → fieldOfString e.1 ≠ some f) →
       (setThresholds th entries).2.get f = th.get f) ∧
    (∀ th entries, (∀ f, 0 ≤ th.get f) →
       ∀ f, 0 ≤ (setThresholds th entries).2.get f) ∧
    (∀ th k q, fieldOfString k = none → thresholdKeyDefined k = true →
       (0 : ℚ) ≤ q → setThresholds th [(k, JsVal.num q)] = (1, th)) ∧
    setThresholds defaultThresholds
        [("temp", JsVal.num (-1)), ("heartrate", JsVal.num 5)]
      = (1, { defaultThresholds with heartrate := 5 }) := by
  refine ⟨?_, ?_, ?_, ?_, by decide⟩
  · intro th entries
    rw [setThresholds, setThresholdsGo_count entries th 0, Nat.zero_add]
  · intro th entries f h
    exact setThresholdsGo_get_skip entries th 0 f h
  · intro th entries h f
    exact setThresholdsGo_nonneg entries th 0 h f
  · intro th k q hnone hdef hq
    have hv : validThresholdEntry (k, JsVal.num q) = true := by
      simp [validThresholdEntry, hdef, isValidNumber, jsNonnegNum, hq]
    rw [setThresholds]
    simp only [setThresholdsGo]
    rw [if_pos hv]
    simp [assignThreshold, hnone]

/-- C9 witness: the theorem evaluated at concrete inputs, including a
prototype-named key that is counted but changes nothing. -/
theorem setThresholds_spec_witness :
    (∀ f, 0 ≤ defaultThresholds.get f) ∧
    (∀ f, 0 ≤ (setThresholds defaultThresholds
        [("temp", JsVal.num (-1)), ("lat", JsVal.str "x")]).2.get f) ∧
    setThresholds defaultThresholds [("valueOf", JsVal.num 2)]
      = (1, defaultThresholds) ∧
    (setThresholds defaultThresholds
        [("temp", JsVal.num (-1)), ("heartrate", JsVal.num 5)]).1 = 1 :=
  ⟨fun f => by cases f <;> decide,
   setThresholds_spec.2.2.1 defaultThresholds
     [("temp", JsVal.num (-1)), ("lat", JsVal.str "x")]
     (fun f => by cases f <;> decide),
   setThresholds_spec.2.2.2.1 defaultThresholds "valueOf" 2 (by decide)
     (by decide) (by decide),
   by rw [setThresholds_spec.1 defaultThresholds]; decide⟩

/-! ### C10: resubmission under a zero threshold -/

/-- C10: once a numeric field's threshold is set to 0, resubmitting the
exact stored value is classified as significant (`abs(v - v) = 0 >= 0`),
so `updateChangedFields` records the field again: the store entry and the
reported changed-fields mapping both carry the resubmitted value with the
fresh instant `now` as timestamp, which strictly advances the field's
timestamp whenever the resubmission happens later than the stored one —
identical submissions are not idempotent under a zero threshold. -/
theorem zero_threshold_resubmit (th : Thresholds) (f : SensorField) (v : ℚ)
    (store : FieldMap Reading) (now ts : Nat)
    (hth : th.get f = 0)
    (hstore : store.get f = some { value := JsVal.num v, timestamp := ts }) :
    hasDataChanged th f (some (JsVal.num v)) (some (JsVal.num v)) = true ∧
    (updateChangedFields store th (FieldMap.single f (JsVal.num v)) now).2.get f
      = some { value := JsVal.num v, timestamp := now } ∧
    ∃ m, (updateChangedFields store th (FieldMap.single f (JsVal.num v)) now).1
        = some m ∧
      m.get f = some { value := JsVal.num v, timestamp := now } := by
  have hch : hasDataChanged th f (some (JsVal.num v)) (some (JsVal.num v)) = true := by
    simp [hasDataChanged, isUnset, JsVal.isNumber, hth]
  refine ⟨hch, ?_⟩
  cases f <;>
    simp_all [updateChangedFields, updateFieldsGo, SensorField.all,
      FieldMap.single, FieldMap.empty, FieldMap.get, FieldMap.set]

/-- C10 witness: the theorem at a zero temperature threshold with value 5
stored at instant 1 and resubmitted at instant 9. -/
theorem zero_threshold_resubmit_witness :
    hasDataChanged { defaultThresholds with temp := 0 } SensorField.temp
        (some (JsVal.num 5)) (some (JsVal.num 5)) = true ∧
    (updateChangedFields
        (FieldMap.single SensorField.temp
          { value := JsVal.num 5, timestamp := 1 })
        { defaultThresholds with temp := 0 }
        (FieldMap.single SensorField.temp (JsVal.num 5)) 9).2.get
        SensorField.temp
      = some { value := JsVal.num 5, timestamp := 9 } ∧
    ∃ m, (updateChangedFields
        (FieldMap.single SensorField.temp
          { value := JsVal.num 5, timestamp := 1 })
        { defaultThresholds with temp := 0 }
        (FieldMap.single SensorField.temp (JsVal.num 5)) 9).1 = some m ∧
      m.get SensorField.temp = some { value := JsVal.num 5, timestamp := 9 } :=
  zero_threshold_resubmit { defaultThresholds with temp := 0 }
    SensorField.temp 5
    (FieldMap.single SensorField.temp { value := JsVal.num 5, timestamp := 1 })
    9 1 (by decide) (by decide)

/-! ### C7: empty request and idempotent no-op -/

/-- C7: `setCommand` fails with `EmptyRequest` when neither `buzzer` nor
`led` is provided, leaving the state untouched; and when every provided
field already equals its stored value the call is an idempotent no-op:
it reports `updated = false`, enqueues no `PendingCommand`, notifies no
listener, and leaves the whole command state (queue and registry
included) unchanged. -/
theorem setCommand_empty_idempotent :
    (∀ st id now,
       setCommand st none none id now = (SetCmdResult.emptyRequest, st)) ∧
    (∀ st (ob ol : Option Bool) id now,
       (ob = none ∨ ob = some st.deviceCommands.buzzer) →
       (ol = none ∨ ol = some st.deviceCommands.led) →
       ¬(ob = none ∧ ol = none) →
       setCommand st (ob.map JsVal.jbool) (ol.map JsVal.jbool) id now
         = (SetCmdResult.ok st.deviceCommands false, st)) := by
  constructor
  · intro st id now
    rfl
  · intro st ob ol id now hb hl hne
    rcases hb with rfl | rfl <;> rcases hl with rfl | rfl
    · exact absurd ⟨rfl, rfl⟩ hne
    · simp [setCommand, applyCmdFields, applyLed]
    · simp [setCommand, applyCmdFields, applyLed]
    · simp [setCommand, applyCmdFields, applyLed]

/-- C7 witness: the theorem at a state with the buzzer already on. -/
theorem setCommand_empty_idempotent_witness :
    setCommand initCmdState none none "c0" 0
        = (SetCmdResult.emptyRequest, initCmdState) ∧
    (some false = none ∨
        some false
          = some { initCmdState with
              deviceCommands := { buzzer := true, led := false }
            }.deviceCommands.led) ∧
    setCommand
        { initCmdState with deviceCommands := { buzzer := true, led := false } }
        ((some true).map JsVal.jbool) ((some false).map JsVal.jbool) "c1" 7
      = (SetCmdResult.ok { buzzer := true, led := false } false,
         { initCmdState with deviceCommands := { buzzer := true, led := false } }) :=
  ⟨setCommand_empty_idempotent.1 initCmdState "c0" 0,
   Or.inr rfl,
   setCommand_empty_idempotent.2
     { initCmdState with deviceCommands := { buzzer := true, led := false } }
     (some true) (some false) "c1" 7 (Or.inr rfl) (Or.inr rfl)
     (fun h => by cases h.1)⟩

/-! ### C4: synchronous resolution of a long-poll arrival -/

/-- C4: a long-poll request (`GET /api/getDeviceCommand`) arriving while
the pending queue is non-empty resolves synchronously (whatever the
`immediate` flag) with the oldest queued command — the queue head, since
`setCommand` appends at the tail — and removes exactly that command from
the queue; arriving with an empty queue and the `immediate` flag, it
resolves synchronously with the current `deviceCommands` snapshot and
changes nothing. -/
theorem getDeviceCommand_immediate_spec :
    (∀ st imm c rest, st.pendingCommands = c :: rest →
       getDeviceCommand st imm
         = (LongPollOutcome.immediateCommand c.commands c.id c.timestamp,
            { st with pendingCommands := rest })) ∧
    (∀ st, st.pendingCommands = [] →
       getDeviceCommand st true
         = (LongPollOutcome.immediateSnapshot st.deviceCommands, st)) := by
  constructor
  · intro st imm c rest h
    simp [getDeviceCommand, h]
  · intro st h
    simp [getDeviceCommand, h]

/-- C4 witness: the theorem at a one-command queue and at the empty
queue. -/
theorem getDeviceCommand_immediate_spec_witness :
    getDeviceCommand
        { initCmdState with
            pendingCommands :=
              [{ id := "a", commands := { buzzer := some true, led := none },
                 timestamp := 3 }] } false
      = (LongPollOutcome.immediateCommand { buzzer := some true, led := none }
           "a" 3,
         initCmdState) ∧
    getDeviceCommand initCmdState true
      = (LongPollOutcome.immediateSnapshot initCmdState.deviceCommands,
         initCmdState) :=
  ⟨getDeviceCommand_immediate_spec.1
      { initCmdState with
          pendingCommands :=
            [{ id := "a", commands := { buzzer := some true, led := none },
               timestamp := 3 }] } false
      { id := "a", commands := { buzzer := some true, led := none },
        timestamp := 3 } [] rfl,
   getDeviceCommand_immediate_spec.2 initCmdState rfl⟩

/-! ### Helper lemmas: listener notification -/

theorem notifyEvents_eq_map (L : List Nat) (ev : List (Nat × ListenerMsg))
    (c : PendingCommand) (h : ∀ lid ∈ L, isResolvedIn ev lid = false) :
    notifyEvents L ev c
      = L.map (fun lid => (lid, ListenerMsg.cmd c.commands c.id c.timestamp)) := by
  induction L with
  | nil => rfl
  | cons a L ih =>
    have ha := h a (List.mem_cons_self a L)
    simp only [notifyEvents, List.filterMap_cons, ha, Bool.false_eq_true,
      if_false, List.map_cons]
    rw [List.cons.injEq]
    exact ⟨rfl, ih (fun l hl => h l (List.mem_cons_of_mem a hl))⟩

theorem setCommand_updated_shape (st : CmdState) (b l : Option JsVal)
    (id : String) (now : Nat) (dc : DevCmds) (cu : CommandUpdate)
    (h : applyCmdFields st.deviceCommands b l = SetCmdApply.applied dc cu true) :
    setCommand st b l id now
      = (SetCmdResult.ok dc true,
         { st with deviceCommands := dc,
                   pendingCommands :=
                     st.pendingCommands ++ [{ id := id, commands := cu, timestamp := now }],
                   commandListeners := [],
                   events := st.events ++
                     notifyEvents st.commandListeners st.events
                       { id := id, commands := cu, timestamp := now } }) := by
  simp [setCommand, h, notifyCommandListeners]

/-! ### C3: broadcast-then-clear on a changing `setCommand` -/

/-- C3: whenever `setCommand` changes at least one boolean field, a
`PendingCommand` holding exactly the changed fields (a provided field
equal to its stored value is dropped) is appended to the queue, and then
every currently-registered listener — all of them — is answered with that
just-built command, after which the listener registry is empty.  The
hypothesis that registered listeners are unresolved is the system
invariant established in `waiter_timeout_once`'s induction (a parked
request has never been answered). -/
theorem setCommand_broadcast (st : CmdState) (ob ol : Option Bool)
    (id : String) (now : Nat)
    (hchange : (∃ b, ob = some b ∧ b ≠ st.deviceCommands.buzzer) ∨
               (∃ b, ol = some b ∧ b ≠ st.deviceCommands.led))
    (hunres : ∀ lid ∈ st.commandListeners, isResolved st lid = false) :
    ∃ cu : CommandUpdate,
      cu.buzzer = Option.filter (fun b => b != st.deviceCommands.buzzer) ob ∧
      cu.led = Option.filter (fun b => b != st.deviceCommands.led) ol ∧
      (setCommand st (ob.map JsVal.jbool) (ol.map JsVal.jbool) id now).2.pendingCommands
        = st.pendingCommands ++ [{ id := id, commands := cu, timestamp := now }] ∧
      (setCommand st (ob.map JsVal.jbool) (ol.map JsVal.jbool) id now).2.events
        = st.events ++ st.commandListeners.map
            (fun lid => (lid, ListenerMsg.cmd cu id now)) ∧
      (setCommand st (ob.map JsVal.jbool) (ol.map JsVal.jbool) id now).2.commandListeners
        = [] := by
  have hmap : ∀ (cu : CommandUpdate),
      notifyEvents st.commandListeners st.events
          { id := id, commands := cu, timestamp := now }
        = st.commandListeners.map (fun lid => (lid, ListenerMsg.cmd cu id now)) :=
    fun cu => notifyEvents_eq_map st.commandListeners st.events
      { id := id, commands := cu, timestamp := now } hunres
  have happly : ∃ dc cu,
      applyCmdFields st.deviceCommands (ob.map JsVal.jbool) (ol.map JsVal.jbool)
          = SetCmdApply.applied dc cu true ∧
      cu.buzzer = Option.filter (fun b => b != st.deviceCommands.buzzer) ob ∧
      cu.led = Option.filter (fun b => b != st.deviceCommands.led) ol := by
    rcases hchange with ⟨b, rfl, hb⟩ | ⟨b, hol, hb⟩
    · have hbne : (st.deviceCommands.buzzer != b) = true := by
        simp [bne_iff_ne]
        exact fun h => hb h.symm
      cases ol with
      | none =>
        refine ⟨{ st.deviceCommands with buzzer := b }, { buzzer := some b }, ?_, ?_, rfl⟩
        · simp [applyCmdFields, applyLed, hbne]
        · simp [Option.filter, hb]
      | some c =>
        by_cases hc : c = st.deviceCommands.led
        · subst hc
          refine ⟨{ st.deviceCommands with buzzer := b }, { buzzer := some b }, ?_, ?_, ?_⟩
          · simp [applyCmdFields, applyLed, hbne]
          · simp [Option.filter, hb]
          · simp [Option.filter]
        · have hcne : (st.deviceCommands.led != c) = true := by
            simp [bne_iff_ne]
            exact fun h => hc h.symm
          refine ⟨{ st.deviceCommands with buzzer := b, led := c },
            { buzzer := some b, led := some c }, ?_, ?_, ?_⟩
          · simp [applyCmdFields, applyLed, hbne, hcne]
          · simp [Option.filter, hb]
          · simp [Option.filter, hc]
    · have hcne : (st.deviceCommands.led != b) = true := by
        simp [bne_iff_ne]
        exact fun h => hb h.symm
      subst hol
      cases ob with
      | none =>
        refine ⟨{ st.deviceCommands with led := b }, { led := some b }, ?_, rfl, ?_⟩
        · simp [applyCmdFields, applyLed, hcne]
        · simp [Option.filter, hb]
      | some a =>
        by_cases ha : a = st.deviceCommands.buzzer
        · subst ha
          refine ⟨{ st.deviceCommands with led := b }, { led := some b }, ?_, ?_, ?_⟩
          · simp [applyCmdFields, applyLed, hcne]
          · simp [Option.filter]
          · simp [Option.filter, hb]
        · have hane : (st.deviceCommands.buzzer != a) = true := by
            simp [bne_iff_ne]
            exact fun h => ha h.symm
          refine ⟨{ st.deviceCommands with buzzer := a, led := b },
            { buzzer := some a, led := some b }, ?_, ?_, ?_⟩
          · simp [applyCmdFields, applyLed, hane, hcne]
          · simp [Option.filter, ha]
          · simp [Option.filter, hb]
  obtain ⟨dc, cu, happ, hcub, hcul⟩ := happly
  refine ⟨cu, hcub, hcul, ?_, ?_, ?_⟩ <;>
    · rw [setCommand_updated_shape st (ob.map JsVal.jbool) (ol.map JsVal.jbool)
        id now dc cu happ]
      try simp [hmap]

/-- A state with one parked long-poll listener (id 0), obtained by a
long-poll arrival on the initial state. -/
def waiterState : CmdState := (getDeviceCommand initCmdState false).2

/-- C3 witness: the theorem on a state with one parked listener,
switching the buzzer on. -/
theorem setCommand_broadcast_witness :
    ∃ cu : CommandUpdate,
      cu.buzzer
          = Option.filter (fun b => b != waiterState.deviceCommands.buzzer)
              (some true) ∧
      cu.led
          = Option.filter (fun b => b != waiterState.deviceCommands.led)
              (none : Option Bool) ∧
      (setCommand waiterState ((some true).map JsVal.jbool)
          ((none : Option Bool).map JsVal.jbool) "cmd1" 5).2.pendingCommands
        = waiterState.pendingCommands
            ++ [{ id := "cmd1", commands := cu, timestamp := 5 }] ∧
      (setCommand waiterState ((some true).map JsVal.jbool)
          ((none : Option Bool).map JsVal.jbool) "cmd1" 5).2.events
        = waiterState.events ++ waiterState.commandListeners.map
            (fun lid => (lid, ListenerMsg.cmd cu "cmd1" 5)) ∧
      (setCommand waiterState ((some true).map JsVal.jbool)
          ((none : Option Bool).map JsVal.jbool) "cmd1" 5).2.commandListeners
        = [] :=
  setCommand_broadcast waiterState (some true) none "cmd1" 5
    (Or.inl ⟨true, rfl, by decide⟩) (by decide)

/-! ### C6: rejected fields and (non-)atomicity of `setCommand` -/

/-- C6 counterexample: the claim "no field of the request is applied when
some field is rejected" is false for the code.  From the initial state,
`setCommand(buzzer: true, led: "x")` is rejected with the LED type error,
yet the buzzer — validated and applied before the LED is examined — has
been switched from `false` to `true` in the stored `DeviceCommandState`. -/
theorem setCommand_atomicity_cex :
    (setCommand initCmdState (some (JsVal.jbool true)) (some (JsVal.str "x"))
        "c1" 0).1 = SetCmdResult.invalidLed ∧
    initCmdState.deviceCommands.buzzer = false ∧
    (setCommand initCmdState (some (JsVal.jbool true)) (some (JsVal.str "x"))
        "c1" 0).2.deviceCommands.buzzer = true :=
  ⟨rfl, rfl, rfl⟩

/-- C6 (amended): `SubmitReading` is atomic — any validation error fails
the whole call with the collected messages and leaves the store
untouched.  For `SetCommand`, a non-boolean buzzer is rejected before any
state change; a non-boolean LED is rejected with `InvalidType` and
enqueues nothing and notifies nobody, but a valid, changing buzzer
provided in the same request has already been applied to the stored
`DeviceCommandState` (the buzzer field is validated and applied before
the LED field is validated), so the state is not left unchanged. -/
theorem validation_no_partial_apply :
    (∀ store th input now, validateSensorData input ≠ [] →
       submitReading store th input now
         = (SubmitResult.validationFailed (validateSensorData input), store)) ∧
    (∀ st v ol id now, JsVal.isBoolVal v = false →
       setCommand st (some v) ol id now = (SetCmdResult.invalidBuzzer, st)) ∧
    (∀ st (ob : Option Bool) v id now, JsVal.isBoolVal v = false →
       (setCommand st (ob.map JsVal.jbool) (some v) id now).1
           = SetCmdResult.invalidLed ∧
       (setCommand st (ob.map JsVal.jbool) (some v) id now).2.pendingCommands
           = st.pendingCommands ∧
       (setCommand st (ob.map JsVal.jbool) (some v) id now).2.commandListeners
           = st.commandListeners ∧
       (setCommand st (ob.map JsVal.jbool) (some v) id now).2.events
           = st.events ∧
       (setCommand st (ob.map JsVal.jbool) (some v) id now).2.deviceCommands.led
           = st.deviceCommands.led ∧
       (setCommand st (ob.map JsVal.jbool) (some v) id now).2.deviceCommands.buzzer
           = (match ob with
              | some b => b
              | none => st.deviceCommands.buzzer)) := by
  refine ⟨?_, ?_, ?_⟩
  · intro store th input now h
    rw [submitReading]
    simp only [List.isEmpty_iff]
    rw [if_neg h]
  · intro st v ol id now hv
    cases v <;> simp_all [setCommand, applyCmdFields, JsVal.isBoolVal]
  · intro st ob v id now hv
    cases ob with
    | none =>
      cases v <;> simp_all [setCommand, applyCmdFields, applyLed, JsVal.isBoolVal]
    | some b =>
      by_cases hb : st.deviceCommands.buzzer = b
      · subst hb
        cases v <;> simp_all [setCommand, applyCmdFields, applyLed, JsVal.isBoolVal]
      · have hbne : (st.deviceCommands.buzzer != b) = true := by
          simp [bne_iff_ne]
          exact hb
        cases v <;> simp_all [setCommand, applyCmdFields, applyLed, JsVal.isBoolVal]

/-- C6 witness: the amended theorem at concrete inputs — a bad movement
reading rejected atomically, and a bad LED paired with a changing buzzer
leaving queue, registry and LED untouched while the buzzer is applied. -/
theorem validation_no_partial_apply_witness :
    (validateSensorData (FieldMap.single SensorField.movement (JsVal.str "flying")) ≠ [] ∧
      submitReading FieldMap.empty defaultThresholds
          (FieldMap.single SensorField.movement (JsVal.str "flying")) 3
        = (SubmitResult.validationFailed
            (validateSensorData
              (FieldMap.single SensorField.movement (JsVal.str "flying"))),
           FieldMap.empty)) ∧
    setCommand initCmdState (some (JsVal.num 1)) none "c2" 0
        = (SetCmdResult.invalidBuzzer, initCmdState) ∧
    (setCommand initCmdState ((some true).map JsVal.jbool)
        (some (JsVal.str "x")) "c3" 0).2.pendingCommands
      = initCmdState.pendingCommands :=
  ⟨⟨by decide,
    (validation_no_partial_apply.1 FieldMap.empty defaultThresholds
      (FieldMap.single SensorField.movement (JsVal.str "flying")) 3
      (by decide))⟩,
   validation_no_partial_apply.2.1 initCmdState (JsVal.num 1) none "c2" 0 rfl,
   (validation_no_partial_apply.2.2 initCmdState (some true) (JsVal.str "x")
      "c3" 0 rfl).2.1⟩

/-! ### C2: command consumption -/

/-- C2 counterexample: a `PendingCommand` can reach a poll consumer after
it has already been delivered to a waiting long-poll listener, so
"consumed at most once" is false for the code.  Trace: a long-poll parks
listener 0 on the empty initial state; `setCommand(buzzer: true)` builds
command `"cmd1"`, pushes it on the queue and broadcasts it to listener 0
— but `notifyCommandListeners` never removes it from `pendingCommands` —
so a subsequent plain poll dequeues and delivers the very same command
again. -/
theorem pendingCommand_once_cex :
    (runOps initCmdState
        [CmdOp.longPoll false,
         CmdOp.submitCmd (some (JsVal.jbool true)) none "cmd1" 5]).events
      = [(0, ListenerMsg.cmd { buzzer := some true, led := none } "cmd1" 5)] ∧
    (pollDeviceCommand (runOps initCmdState
        [CmdOp.longPoll false,
         CmdOp.submitCmd (some (JsVal.jbool true)) none "cmd1" 5])).1
      = PollOutcome.newCommand { buzzer := some true, led := none } "cmd1" 5 :=
  ⟨rfl, rfl⟩

theorem applyLed_err_shape (dc : DevCmds) (cu : CommandUpdate) (u : Bool)
    (l : Option JsVal) (r : SetCmdResult) (dcx : DevCmds)
    (h : applyLed dc cu u l = SetCmdApply.err r dcx) :
    r = SetCmdResult.invalidLed := by
  cases l with
  | none => simp [applyLed] at h
  | some v =>
    cases v with
    | jbool b =>
      simp only [applyLed] at h
      split at h <;> cases h
    | num q => simp only [applyLed] at h; injection h with h1 h2; exact h1.symm
    | nan => simp only [applyLed] at h; injection h with h1 h2; exact h1.symm
    | str s => simp only [applyLed] at h; injection h with h1 h2; exact h1.symm
    | null => simp only [applyLed] at h; injection h with h1 h2; exact h1.symm

theorem applyCmdFields_err_shape (dc0 : DevCmds) (b l : Option JsVal)
    (r : SetCmdResult) (dcx : DevCmds)
    (h : applyCmdFields dc0 b l = SetCmdApply.err r dcx) :
    r = SetCmdResult.emptyRequest ∨ r = SetCmdResult.invalidBuzzer ∨
      r = SetCmdResult.invalidLed := by
  rw [applyCmdFields.eq_def] at h
  split at h
  · cases h
    exact Or.inl rfl
  · cases b with
    | none => exact Or.inr (Or.inr (applyLed_err_shape _ _ _ _ _ _ h))
    | some v =>
      cases v with
      | jbool bb =>
        simp only at h
        split at h <;>
          exact Or.inr (Or.inr (applyLed_err_shape _ _ _ _ _ _ h))
      | num q => cases h; exact Or.inr (Or.inl rfl)
      | nan => cases h; exact Or.inr (Or.inl rfl)
      | str s => cases h; exact Or.inr (Or.inl rfl)
      | null => cases h; exact Or.inr (Or.inl rfl)

/-- C2 (amended): consumption is at-most-once only across the poll paths:
a queued command is removed by its first poll consumer (the oldest
command goes to a plain poll or an immediate long-poll, which dequeue
it), but delivery to waiting long-poll listeners does not consume — a
changing `setCommand` both broadcasts the just-built command to every
registered listener and leaves it appended to the queue, where a later
poll can deliver it a second time. -/
theorem pendingCommand_consumption :
    (∀ st c rest, st.pendingCommands = c :: rest →
       (pollDeviceCommand st).1
           = PollOutcome.newCommand c.commands c.id c.timestamp ∧
       (pollDeviceCommand st).2.pendingCommands = rest) ∧
    (∀ st imm c rest, st.pendingCommands = c :: rest →
       (getDeviceCommand st imm).1
           = LongPollOutcome.immediateCommand c.commands c.id c.timestamp ∧
       (getDeviceCommand st imm).2.pendingCommands = rest) ∧
    (∀ st b l id now dc, (setCommand st b l id now).1 = SetCmdResult.ok dc true →
       ∃ cu, (setCommand st b l id now).2.pendingCommands
         = st.pendingCommands ++ [{ id := id, commands := cu, timestamp := now }]) := by
  refine ⟨?_, ?_, ?_⟩
  · intro st c rest h
    constructor <;> simp [pollDeviceCommand, h]
  · intro st imm c rest h
    constructor <;> simp [getDeviceCommand, h]
  · intro st b l id now dc h
    cases happ : applyCmdFields st.deviceCommands b l with
    | err r dc0 =>
      rw [setCommand, happ] at h
      simp only at h
      rcases applyCmdFields_err_shape st.deviceCommands b l r dc0 happ with
        rfl | rfl | rfl <;> cases h
    | applied dc0 cu upd =>
      cases upd
      · rw [setCommand, happ] at h
        cases h
      · refine ⟨cu, ?_⟩
        rw [setCommand_updated_shape st b l id now dc0 cu happ]

/-- C2 witness: the amended theorem at a one-command queue and at a
changing `setCommand`. -/
theorem pendingCommand_consumption_witness :
    ((pollDeviceCommand
        { initCmdState with
            pendingCommands :=
              [{ id := "a", commands := { buzzer := some true, led := none },
                 timestamp := 3 }] }).1
      = PollOutcome.newCommand { buzzer := some true, led := none } "a" 3) ∧
    ∃ cu, (setCommand initCmdState (some (JsVal.jbool true)) none "b" 4).2.pendingCommands
      = initCmdState.pendingCommands
          ++ [{ id := "b", commands := cu, timestamp := 4 }] :=
  ⟨(pendingCommand_consumption.1
      { initCmdState with
          pendingCommands :=
            [{ id := "a", commands := { buzzer := some true, led := none },
               timestamp := 3 }] }
      { id := "a", commands := { buzzer := some true, led := none },
        timestamp := 3 } [] rfl).1,
   pendingCommand_consumption.2.2 initCmdState (some (JsVal.jbool true)) none
     "b" 4 { buzzer := true, led := false } rfl⟩

/-! ### Invariant of the listener registry and the resolution log -/

theorem countEv_append (a b : List (Nat × ListenerMsg)) (lid : Nat) :
    countEv (a ++ b) lid = countEv a lid + countEv b lid := by
  simp [countEv, List.filter_append]

theorem isResolvedIn_append (a b : List (Nat × ListenerMsg)) (lid : Nat) :
    isResolvedIn (a ++ b) lid = (isResolvedIn a lid || isResolvedIn b lid) := by
  simp [isResolvedIn, List.any_append]

theorem isResolvedIn_false_iff (ev : List (Nat × ListenerMsg)) (lid : Nat) :
    isResolvedIn ev lid = false ↔ countEv ev lid = 0 := by
  induction ev with
  | nil => simp [isResolvedIn, countEv]
  | cons e ev ih =>
    by_cases he : (e.1 == lid) = true
    · simp [isResolvedIn, countEv, List.filter_cons, he]
    · simp only [isResolvedIn, List.any_cons, he, Bool.false_or] at ih ⊢
      simp only [countEv, List.filter_cons, he, if_false] at ih ⊢
      exact ih

theorem isResolvedIn_false_of_ne (ev : List (Nat × ListenerMsg)) (lid : Nat)
    (h : ∀ e ∈ ev, e.1 ≠ lid) : isResolvedIn ev lid = false := by
  rw [isResolvedIn, List.any_eq_false]
  intro e he
  simpa using h e he

theorem notifyEvents_cons (a : Nat) (L : List Nat)
    (ev : List (Nat × ListenerMsg)) (c : PendingCommand) :
    notifyEvents (a :: L) ev c
      = if isResolvedIn ev a = true then notifyEvents L ev c
        else (a, ListenerMsg.cmd c.commands c.id c.timestamp) :: notifyEvents L ev c := by
  rw [notifyEvents, List.filterMap_cons]
  by_cases h : isResolvedIn ev a = true <;> simp [h, notifyEvents]

theorem countEv_notifyEvents_not_mem (L : List Nat)
    (ev : List (Nat × ListenerMsg)) (c : PendingCommand) (lid : Nat)
    (h : lid ∉ L) : countEv (notifyEvents L ev c) lid = 0 := by
  induction L with
  | nil => rfl
  | cons a L ih =>
    have hne : (a == lid) = false := by
      simp only [beq_eq_false_iff_ne, ne_eq]
      intro e
      exact h (e ▸ List.mem_cons_self a L)
    have htail := ih (fun hm => h (List.mem_cons_of_mem a hm))
    rw [notifyEvents_cons]
    by_cases hra : isResolvedIn ev a = true
    · rw [if_pos hra]; exact htail
    · rw [if_neg hra]
      simp only [countEv, List.filter_cons, hne, Bool.false_eq_true, if_false]
      exact htail

theorem countEv_notifyEvents_le (L : List Nat)
    (ev : List (Nat × ListenerMsg)) (c : PendingCommand) (lid : Nat)
    (hnd : L.Nodup) :
    countEv (notifyEvents L ev c) lid
      ≤ if isResolvedIn ev lid = true then 0 else 1 := by
  induction L with
  | nil =>
    have : countEv (notifyEvents [] ev c) lid = 0 := rfl
    rw [this]
    split <;> simp
  | cons a L ih =>
    have hnd' : L.Nodup := hnd.of_cons
    have ha : a ∉ L := (List.nodup_cons.mp hnd).1
    rw [notifyEvents_cons]
    by_cases hra : isResolvedIn ev a = true
    · rw [if_pos hra]; exact ih hnd'
    · rw [if_neg hra]
      by_cases hal : a = lid
      · subst hal
        rw [if_neg (by simpa using hra)]
        simp only [countEv, List.filter_cons, beq_self_eq_true, if_true]
        have := countEv_notifyEvents_not_mem L ev c a ha
        simp only [countEv] at this
        simp [this]
      · have hne : (a == lid) = false := by simpa using hal
        simp only [countEv, List.filter_cons, hne, Bool.false_eq_true, if_false]
        exact ih hnd'

theorem mem_notifyEvents_fst (L : List Nat) (ev : List (Nat × ListenerMsg))
    (c : PendingCommand) (e : Nat × ListenerMsg)
    (h : e ∈ notifyEvents L ev c) : e.1 ∈ L := by
  rw [notifyEvents] at h
  obtain ⟨a, ha, hfa⟩ := List.mem_filterMap.mp h
  by_cases hra : isResolvedIn ev a = true
  · rw [if_pos hra] at hfa; cases hfa
  · rw [if_neg hra] at hfa
    injection hfa with hfa
    rw [← hfa]
    exact ha

/-- The system invariant of the command dispatcher: the listener registry
holds distinct, previously-issued ids; every registered listener is
unresolved (no response was ever sent to it); every logged response went
to a previously-issued id; and no listener ever received more than one
response. -/
def CmdInv (st : CmdState) : Prop :=
  st.commandListeners.Nodup ∧
  (∀ lid ∈ st.commandListeners, lid < st.nextListenerId) ∧
  (∀ lid ∈ st.commandListeners, isResolvedIn st.events lid = false) ∧
  (∀ e ∈ st.events, e.1 < st.nextListenerId) ∧
  (∀ lid, countEv st.events lid ≤ 1)

theorem Inv_initCmdState : CmdInv initCmdState := by
  refine ⟨List.nodup_nil, ?_, ?_, ?_, ?_⟩ <;>
    simp [initCmdState, countEv, isResolvedIn]

theorem Inv_getDeviceCommand (st : CmdState) (imm : Bool) (h : CmdInv st) :
    CmdInv (getDeviceCommand st imm).2 := by
  obtain ⟨h1, h2, h3, h4, h5⟩ := h
  rw [getDeviceCommand]
  split
  · split
    · exact ⟨h1, h2, h3, h4, h5⟩
    · exact ⟨h1, h2, h3, h4, h5⟩
  · refine ⟨?_, ?_, ?_, ?_, h5⟩
    · rw [List.nodup_append]
      refine ⟨h1, List.nodup_singleton _, ?_⟩
      intro a ha hb
      rw [List.mem_singleton] at hb
      rw [hb] at ha
      exact absurd (h2 _ ha) (lt_irrefl _)
    · intro lid hm
      rw [List.mem_append, List.mem_singleton] at hm
      rcases hm with hm | rfl
      · exact Nat.lt_succ_of_lt (h2 lid hm)
      · exact Nat.lt_succ_self _
    · intro lid hm
      rw [List.mem_append, List.mem_singleton] at hm
      rcases hm with hm | rfl
      · exact h3 lid hm
      · exact isResolvedIn_false_of_ne _ _
          (fun e he => Nat.ne_of_lt (h4 e he))
    · intro e he
      exact Nat.lt_succ_of_lt (h4 e he)

theorem Inv_pollDeviceCommand (st : CmdState) (h : CmdInv st) :
    CmdInv (pollDeviceCommand st).2 := by
  obtain ⟨h1, h2, h3, h4, h5⟩ := h
  rw [pollDeviceCommand]
  split
  · exact ⟨h1, h2, h3, h4, h5⟩
  · exact ⟨h1, h2, h3, h4, h5⟩

theorem Inv_clearPendingCommands (st : CmdState) (h : CmdInv st) :
    CmdInv (clearPendingCommands st).2 := by
  obtain ⟨-, -, -, h4, h5⟩ := h
  exact ⟨List.nodup_nil, fun lid hm => absurd hm (List.not_mem_nil lid),
    fun lid hm => absurd hm (List.not_mem_nil lid), h4, h5⟩

theorem Inv_fireTimeout (st : CmdState) (lid now : Nat) (h : CmdInv st) :
    CmdInv (fireTimeout st lid now) := by
  obtain ⟨h1, h2, h3, h4, h5⟩ := h
  rw [fireTimeout]
  split
  case isFalse => exact ⟨h1, h2, h3, h4, h5⟩
  case isTrue hlt =>
    split
    case isTrue hres => exact
      ⟨h1.filter _,
       fun l hm => h2 l (List.mem_of_mem_filter hm),
       fun l hm => h3 l (List.mem_of_mem_filter hm), h4, h5⟩
    case isFalse hres =>
      have hres0 : isResolvedIn st.events lid = false := by
        simpa [isResolved] using hres
      refine ⟨h1.filter _, ?_, ?_, ?_, ?_⟩
      · intro l hm
        exact h2 l (List.mem_of_mem_filter hm)
      · intro l hm
        have hl : l ∈ st.commandListeners ∧ l ≠ lid := by
          have := List.mem_filter.mp hm
          exact ⟨this.1, by simpa using this.2⟩
        rw [isResolvedIn_append, h3 l hl.1, Bool.false_or]
        apply isResolvedIn_false_of_ne
        intro e he
        rw [List.mem_singleton] at he
        subst he
        exact fun hle => hl.2 hle.symm
      · intro e he
        rw [List.mem_append, List.mem_singleton] at he
        rcases he with he | rfl
        · exact h4 e he
        · exact hlt
      · intro l
        rw [countEv_append]
        by_cases hl : lid = l
        · subst hl
          have h0 : countEv st.events lid = 0 :=
            (isResolvedIn_false_iff st.events lid).mp hres0
          rw [h0]
          simp [countEv]
        · have h0 : countEv [(lid, ListenerMsg.timeoutSnapshot st.deviceCommands now)] l = 0 := by
            simp [countEv, hl]
          rw [h0]
          simpa using h5 l

theorem Inv_setCommand (st : CmdState) (b l : Option JsVal) (id : String)
    (now : Nat) (h : CmdInv st) : CmdInv (setCommand st b l id now).2 := by
  obtain ⟨h1, h2, h3, h4, h5⟩ := h
  cases happ : applyCmdFields st.deviceCommands b l with
  | err r dc =>
    have hshape : (setCommand st b l id now).2 = { st with deviceCommands := dc } := by
      simp [setCommand, happ]
    rw [hshape]
    exact ⟨h1, h2, h3, h4, h5⟩
  | applied dc cu upd =>
    cases upd with
    | false =>
      have hshape : (setCommand st b l id now).2 = { st with deviceCommands := dc } := by
        simp [setCommand, happ]
      rw [hshape]
      exact ⟨h1, h2, h3, h4, h5⟩
    | true =>
      rw [setCommand_updated_shape st b l id now dc cu happ]
      refine ⟨List.nodup_nil, fun lid hm => absurd hm (List.not_mem_nil lid),
        fun lid hm => absurd hm (List.not_mem_nil lid), ?_, ?_⟩
      · intro e he
        rw [List.mem_append] at he
        rcases he with he | he
        · exact h4 e he
        · exact h2 e.1 (mem_notifyEvents_fst _ _ _ _ he)
      · intro lid
        rw [countEv_append]
        have hle := countEv_notifyEvents_le st.commandListeners st.events
          { id := id, commands := cu, timestamp := now } lid h1
        by_cases hres : isResolvedIn st.events lid = true
        · rw [if_pos hres] at hle
          have := h5 lid
          omega
        · rw [if_neg hres] at hle
          have h0 : countEv st.events lid = 0 :=
            (isResolvedIn_false_iff st.events lid).mp (by simpa using hres)
          omega

theorem Inv_stepOp (st : CmdState) (op : CmdOp) (h : CmdInv st) :
    CmdInv (stepOp st op) := by
  cases op with
  | submitCmd b l id now => exact Inv_setCommand st b l id now h
  | longPoll imm => exact Inv_getDeviceCommand st imm h
  | poll => exact Inv_pollDeviceCommand st h
  | fireTO lid now => exact Inv_fireTimeout st lid now h
  | clear => exact Inv_clearPendingCommands st h

theorem Inv_runOps (ops : List CmdOp) :
    ∀ st, CmdInv st → CmdInv (runOps st ops) := by
  induction ops with
  | nil => intro st h; exact h
  | cons op ops ih =>
    intro st h
    exact ih (stepOp st op) (Inv_stepOp st op h)

/-! ### C5: timeout resolution and single resolution of a Waiter -/

/-- C5: a parked long-poll listener (a registered, previously-issued id
that has never been answered) whose timeout fires is removed from the
registry and answered with the current `deviceCommands` snapshot — not a
queued delta — carrying the `timeout: true` marker; and over every
operation sequence from the initial state, no listener is ever answered
more than once (at most one logged response per listener id), so a
Waiter is never resolved twice. -/
theorem waiter_timeout_once :
    (∀ st lid now, lid < st.nextListenerId → isResolved st lid = false →
       (fireTimeout st lid now).commandListeners
           = st.commandListeners.filter (fun l => l ≠ lid) ∧
       lid ∉ (fireTimeout st lid now).commandListeners ∧
       (fireTimeout st lid now).events
           = st.events ++
               [(lid, ListenerMsg.timeoutSnapshot st.deviceCommands now)]) ∧
    (∀ ops lid, countEv (runOps initCmdState ops).events lid ≤ 1) := by
  constructor
  · intro st lid now hlt hres
    have hres0 : isResolvedIn st.events lid = false := hres
    rw [fireTimeout, if_pos hlt, if_neg (by rw [hres0]; exact Bool.false_ne_true)]
    refine ⟨rfl, ?_, rfl⟩
    intro hmem
    have := (List.mem_filter.mp hmem).2
    simp at this
  · intro ops lid
    exact (Inv_runOps ops initCmdState Inv_initCmdState).2.2.2.2 lid

/-- C5 witness: the theorem at the state with exactly one parked listener
(id 0) firing its timeout at instant 9, and the at-most-once bound on the
concrete trace that parks and then broadcasts to listener 0. -/
theorem waiter_timeout_once_witness :
    ((fireTimeout waiterState 0 9).commandListeners
        = waiterState.commandListeners.filter (fun l => l ≠ 0) ∧
      0 ∉ (fireTimeout waiterState 0 9).commandListeners ∧
      (fireTimeout waiterState 0 9).events
        = waiterState.events ++
            [(0, ListenerMsg.timeoutSnapshot waiterState.deviceCommands 9)]) ∧
    countEv (runOps initCmdState
        [CmdOp.longPoll false,
         CmdOp.submitCmd (some (JsVal.jbool true)) none "cmd1" 5,
         CmdOp.fireTO 0 9]).events 0 ≤ 1 :=
  ⟨waiter_timeout_once.1 waiterState 0 9 (by decide) (by decide),
   waiter_timeout_once.2
     [CmdOp.longPoll false,
      CmdOp.submitCmd (some (JsVal.jbool true)) none "cmd1" 5,
      CmdOp.fireTO 0 9] 0⟩
